import Mathlib

/-!
Verification of the Plan-and-Execute news research agent
(`src/backend/src/services/research_agent.py`).

The embedding models Python values with an inductive `Value` type, Python
dicts as association lists with Python `dict` update semantics, and the
agent's plan/execute/synthesize pipeline as executable Lean functions.
Python-level exceptions that escape a function are modelled with `Except`;
exceptions caught inside a `try` block are routed to the error branches the
source routes them to.  Wall-clock time is modelled as an integer number of
seconds (`now : Int`); `datetime.isoformat` is modelled by an injective
rendering of that integer, which preserves every equality and inequality of
instants the claims speak about.  Collaborator behaviour (database, vector
store, LLM) is abstracted as explicit oracle arguments, since the source
accesses them only through those calls.
-/

namespace ResearchAgent

/-- A Python value as it appears in plans, parameters and tool results. -/
inductive Value where
  | null : Value
  | bool : Bool → Value
  | int : Int → Value
  | str : String → Value
  | list : List Value → Value
  | dict : List (String × Value) → Value
deriving Repr, Inhabited

mutual

/-- Python `==` on `Value`s. -/
def Value.beq : Value → Value → Bool
  | .null, .null => true
  | .bool a, .bool b => a == b
  | .int a, .int b => a == b
  | .str a, .str b => a == b
  | .list a, .list b => Value.beqList a b
  | .dict a, .dict b => Value.beqDict a b
  | _, _ => false

def Value.beqList : List Value → List Value → Bool
  | [], [] => true
  | a :: as, b :: bs => Value.beq a b && Value.beqList as bs
  | _, _ => false

def Value.beqDict : List (String × Value) → List (String × Value) → Bool
  | [], [] => true
  | (k, a) :: as, (l, b) :: bs => k == l && Value.beq a b && Value.beqDict as bs
  | _, _ => false

end

instance : BEq Value := ⟨Value.beq⟩

/-- A Python dict with string keys, in insertion order. -/
abbrev Params := List (String × Value)

/-- `d.get(k)` / `d[k]` lookup (first binding wins, as in a Python dict). -/
def dget (d : Params) (k : String) : Option Value :=
  (d.find? (fun kv => kv.1 == k)).map (fun kv => kv.2)

/-- `d.get(k, default)`. -/
def dgetD (d : Params) (k : String) (v : Value) : Value :=
  (dget d k).getD v

/-- `d[k] = v`: replace in place if the key exists, else append. -/
def dset (d : Params) (k : String) (v : Value) : Params :=
  if (d.find? (fun kv => kv.1 == k)).isSome then
    d.map (fun kv => if kv.1 == k then (kv.1, v) else kv)
  else
    d ++ [(k, v)]

/-- `d.pop(k)` (the removal part; the popped value is read with `dget`). -/
def dremove (d : Params) (k : String) : Params :=
  d.filter (fun kv => !(kv.1 == k))

/-- Whitespace for Python's `\s` class and `str.strip()`. -/
def isWS (c : Char) : Bool :=
  c == ' ' || c == '\t' || c == '\n' || c == '\r'

/-- Python `str.lower()` (the strings in this module are ASCII). -/
def pyLower (s : String) : String :=
  String.mk (s.data.map Char.toLower)

/-- Python `str.strip()`. -/
def pyStrip (s : String) : String :=
  String.mk ((s.data.dropWhile isWS).reverse.dropWhile isWS |>.reverse)

/-- Python `pat in s` substring test, over character lists. -/
def listInfix (pat : List Char) : List Char → Bool
  | [] => pat.isEmpty
  | a :: as => pat.isPrefixOf (a :: as) || listInfix pat as

/-- Python `pat in s` on strings. -/
def strContains (s pat : String) : Bool :=
  listInfix pat.data s.data

mutual

/-- Rendering of a value as Python `repr`, used inside containers by `str`. -/
def pyRepr : Value → String
  | .null => "None"
  | .bool b => if b then "True" else "False"
  | .int n => toString n
  | .str s => "'" ++ s ++ "'"
  | .list l => "[" ++ pyReprList l ++ "]"
  | .dict d => "\x7b" ++ pyReprDict d ++ "\x7d"

def pyReprList : List Value → String
  | [] => ""
  | [v] => pyRepr v
  | v :: vs => pyRepr v ++ ", " ++ pyReprList vs

def pyReprDict : List (String × Value) → String
  | [] => ""
  | [(k, v)] => "'" ++ k ++ "': " ++ pyRepr v
  | (k, v) :: kvs => "'" ++ k ++ "': " ++ pyRepr v ++ ", " ++ pyReprDict kvs

end

/-- Python `str(v)` as used by f-string interpolation. -/
def pyStr : Value → String
  | .str s => s
  | v => pyRepr v

/-- Instants are modelled as integer seconds; `datetime.isoformat()` is an
injective rendering of the instant. -/
def isoformat (t : Int) : String := toString t

/-- Digit run value, e.g. `['4','8'] ↦ 48`. -/
def digitsToNat (ds : List Char) : Nat :=
  ds.foldl (fun a c => 10 * a + (c.toNat - 48)) 0

/-- Seconds per unit for the regex alternation `(hour|day|week|month)`;
`month` is `timedelta(days=number * 30)`. -/
def matchUnit (cs : List Char) : Option (Nat × List Char) :=
  if "hour".data.isPrefixOf cs then some (3600, cs.drop 4)
  else if "day".data.isPrefixOf cs then some (86400, cs.drop 3)
  else if "week".data.isPrefixOf cs then some (604800, cs.drop 4)
  else if "month".data.isPrefixOf cs then some (2592000, cs.drop 5)
  else none

/-- `re.match(r'(\d+)\s*(hour|day|week|month)s?\s*ago', s)`: on a match,
the offset in seconds named by the number and unit. -/
def matchAgo (cs : List Char) : Option Nat :=
  let ds := cs.takeWhile Char.isDigit
  let rest := cs.dropWhile Char.isDigit
  if ds.isEmpty then none
  else
    let n := digitsToNat ds
    let rest := rest.dropWhile isWS
    match matchUnit rest with
    | none => none
    | some (secsPerUnit, rest) =>
      let rest := match rest with
        | 's' :: r => r
        | r => r
      let rest := rest.dropWhile isWS
      if "ago".data.isPrefixOf rest then some (n * secsPerUnit) else none

/-- `re.match(r'(\d+)_hours_ago', s)`: on a match, the number of hours. -/
def matchHoursAgo (cs : List Char) : Option Nat :=
  let ds := cs.takeWhile Char.isDigit
  let rest := cs.dropWhile Char.isDigit
  if ds.isEmpty then none
  else if "_hours_ago".data.isPrefixOf rest then some (digitsToNat ds) else none

/-- `parse_relative_time` as defined inside `execute_plan`: lowercases and
strips its input, resolves `now`, `<N> <unit>(s) ago` and `<N>_hours_ago`
against the current time, and otherwise returns the (lowered, stripped)
string unchanged. -/
def parse_relative_time (time_str : String) (now : Int) : String :=
  let t := pyStrip (pyLower time_str)
  if t == "now" then isoformat now
  else
    match matchAgo t.data with
    | some secs => isoformat (now - (secs : Int))
    | none =>
      match matchHoursAgo t.data with
      | some h => isoformat (now - (h : Int) * 3600)
      | none => t

/-- The Executor's parameter-name fixing (`execute_plan` lines 578–628).
Renames `start`/`end` for `get_by_timerange`; for `generate_summary`
renames `type` and — only inside that branch, exactly as in the source —
applies `parse_relative_time` to string `start_date`/`end_date` values. -/
def fix_step_params (tool_name : Value) (params : Params) (now : Int) : Params :=
  let params :=
    if tool_name == Value.str "get_by_timerange" then
      let params :=
        match dget params "start" with
        | some v => dset (dremove params "start") "start_date" v
        | none => params
      match dget params "end" with
      | some v => dset (dremove params "end") "end_date" v
      | none => params
    else params
  if tool_name == Value.str "generate_summary" then
    let params :=
      match dget params "type" with
      | some v => dset (dremove params "type") "summary_type" v
      | none => params
    let params :=
      match dget params "start_date" with
      | some (.str s) => dset params "start_date" (.str (parse_relative_time s now))
      | _ => params
    match dget params "end_date" with
    | some (.str s) => dset params "end_date" (.str (parse_relative_time s now))
    | _ => params
  else params

/-- A ranked article stub as returned by the vector search collaborator;
the agent's own logic reads only `article_id` and `title`. -/
structure SearchHit where
  article_id : Int
  title : String
deriving Repr, DecidableEq, Inhabited

/-- An article stub as built by `_get_by_timerange_tool`. -/
structure TRArticle where
  id : Int
  title : String
  source : String
  published_date : String
deriving Repr, DecidableEq, Inhabited

/-- The success/failure envelope every tool returns, with the payload
fields the Executor and Synthesizer read (`.get` defaults are the field
defaults). -/
structure ToolResult where
  success : Bool := false
  error : Option String := none
  results : List SearchHit := []
  count : Int := 0
  articles : List TRArticle := []
  article_ids : List Int := []
  categorized : List (String × List Int) := []
  total_filtered : Int := 0
  analysis : String := ""
  topics : List String := []
  summary : String := ""
deriving Repr, DecidableEq, Inhabited

/-- `accumulated_data`: the Executor's cross-step store.  A field is `some`
exactly when the corresponding key is present in the Python dict. -/
structure Accum where
  search_results : Option (List SearchHit) := none
  timerange_articles : Option (List TRArticle) := none
  article_ids : Option (List Int) := none
  filtered_article_ids : Option (List Int) := none
deriving Repr, DecidableEq, Inhabited

/-- The Executor's Accumulator injection (`execute_plan` lines 630–667):
fills a missing `article_ids`/`article_id` parameter from the accumulated
data, with a per-tool lookup order. -/
def inject_params (tool_name : Value) (params : Params) (acc : Accum) : Params :=
  let params :=
    if tool_name == Value.str "analyze_perspectives" && (dget params "article_ids").isNone then
      match acc.search_results with
      | some rs => dset params "article_ids" (.list ((rs.take 5).map (fun r => .int r.article_id)))
      | none =>
        match acc.article_ids with
        | some ids => dset params "article_ids" (.list ((ids.take 5).map Value.int))
        | none => params
    else params
  let params :=
    if tool_name == Value.str "filter_by_source" && (dget params "article_ids").isNone then
      match acc.timerange_articles with
      | some arts => dset params "article_ids" (.list (arts.map (fun a => .int a.id)))
      | none =>
        match acc.search_results with
        | some rs => dset params "article_ids" (.list (rs.map (fun r => .int r.article_id)))
        | none =>
          match acc.article_ids with
          | some ids => dset params "article_ids" (.list (ids.map Value.int))
          | none => params
    else params
  let params :=
    if tool_name == Value.str "extract_topics" && (dget params "article_ids").isNone then
      match acc.filtered_article_ids with
      | some ids => dset params "article_ids" (.list (ids.map Value.int))
      | none =>
        match acc.timerange_articles with
        | some arts => dset params "article_ids" (.list (arts.map (fun a => .int a.id)))
        | none =>
          match acc.search_results with
          | some rs => dset params "article_ids" (.list (rs.map (fun r => .int r.article_id)))
          | none =>
            match acc.article_ids with
            | some ids => dset params "article_ids" (.list (ids.map Value.int))
            | none => params
    else params
  if tool_name == Value.str "generate_summary" && (dget params "article_id").isNone then
    match acc.search_results with
    | some (r :: _) => dset params "article_id" (.int r.article_id)
    | _ =>
      match acc.timerange_articles with
      | some (a :: _) => dset params "article_id" (.int a.id)
      | _ =>
        match acc.filtered_article_ids with
        | some (i :: _) => dset params "article_id" (.int i)
        | _ =>
          match acc.article_ids with
          | some (i :: _) => dset params "article_id" (.int i)
          | _ => params
  else params

/-- The Executor's post-call accumulation (`execute_plan` lines 671–687):
on a successful result, store the tool-specific projection of the payload. -/
def accumulate (tool_name : Value) (result : ToolResult) (acc : Accum) : Accum :=
  if !result.success then acc
  else if tool_name == Value.str "search_articles" then
    { acc with search_results := some result.results }
  else if tool_name == Value.str "get_by_timerange" then
    { acc with timerange_articles := some result.articles,
               article_ids := some (result.articles.map (fun a => a.id)) }
  else if tool_name == Value.str "get_trending" then
    { acc with article_ids := some result.article_ids }
  else if tool_name == Value.str "filter_by_source" then
    let filtered := result.categorized.foldl (fun l p => l ++ p.2) []
    { acc with filtered_article_ids := some filtered, article_ids := some filtered }
  else acc

/-- A per-step outcome appended to `execution_results`.  `description` and
`result` are present exactly on the records the source gives them to. -/
structure ExecRecord where
  step : Value
  tool : Value
  description : Option Value := none
  status : String
  result : Option ToolResult := none
  error : Option String := none
deriving Repr, Inhabited

/-- The Tool Registry's keys (`_setup_tools`). -/
def toolNames : List String :=
  ["search_articles", "get_article_details", "filter_by_source", "generate_summary",
   "analyze_perspectives", "compare_articles", "extract_topics", "get_trending",
   "categorize_bias", "get_by_timerange"]

/-- `self.tools.get(tool_name)` succeeds iff the name is a registry key. -/
def isRegistered (v : Value) : Bool :=
  match v with
  | .str s => toolNames.contains s
  | _ => false

def toolKey (v : Value) : String :=
  match v with
  | .str s => s
  | _ => ""

/-- Behaviour of a tool invocation: either a returned envelope or a
Python exception escaping the call (e.g. a keyword-argument mismatch). -/
def ToolOracle : Type := String → Params → Except String ToolResult

/-- One iteration of the Executor's loop.  The reads of `step_info['step']`
and `step_info['tool']` happen before the `try:` in the source, so their
failures escape `execute_plan` (the `Except` error); everything after is
inside the `try` and at worst appends an error record.  A non-dict `params`
value raises at its first use inside the `try`, yielding an error record. -/
def execute_step (oracle : ToolOracle) (now : Int) (acc : Accum)
    (recs : List ExecRecord) (step_info : Value) :
    Except String (Accum × List ExecRecord) :=
  match step_info with
  | .dict d =>
    match dget d "step" with
    | none => .error "KeyError: 'step'"
    | some step_num =>
      match dget d "tool" with
      | none => .error "KeyError: 'tool'"
      | some tool_name =>
        if !isRegistered tool_name then
          .ok (acc, recs ++ [{ step := step_num, tool := tool_name, status := "error",
                               error := some ("Unknown tool: " ++ pyStr tool_name) }])
        else
          match (dget d "params").getD (.dict []) with
          | .dict params0 =>
            let params1 := fix_step_params tool_name params0 now
            let params2 := inject_params tool_name params1 acc
            match oracle (toolKey tool_name) params2 with
            | .error e =>
              .ok (acc, recs ++ [{ step := step_num, tool := tool_name, status := "error",
                                   error := some e }])
            | .ok result =>
              let acc1 := accumulate tool_name result acc
              match dget d "description" with
              | none =>
                .ok (acc1, recs ++ [{ step := step_num, tool := tool_name, status := "error",
                                      error := some "KeyError: 'description'" }])
              | some desc =>
                .ok (acc1, recs ++ [{ step := step_num, tool := tool_name,
                                      description := some desc,
                                      status := if result.success then "success" else "error",
                                      result := some result }])
          | _ =>
            .ok (acc, recs ++ [{ step := step_num, tool := tool_name, status := "error",
                                 error := some "TypeError" }])
  | _ => .error "TypeError"

/-- The Executor's loop over the plan's steps. -/
def execute_steps (oracle : ToolOracle) (now : Int) :
    List Value → Accum → List ExecRecord → Except String (Accum × List ExecRecord)
  | [], acc, recs => .ok (acc, recs)
  | s :: rest, acc, recs =>
    match execute_step oracle now acc recs s with
    | .error e => .error e
    | .ok (acc', recs') => execute_steps oracle now rest acc' recs'

/-- The value `execute_plan` returns on normal completion. -/
structure ExecSummary where
  execution_results : List ExecRecord
  completed_steps : Nat
  total_steps : Nat
  final_data : Accum
deriving Inhabited

/-- The step list `execute_plan` iterates:
`plan.get('plan', plan.get('fallback_plan', []))`. -/
def plan_steps (plan : Value) : Value :=
  match plan with
  | .dict d => (dget d "plan").getD ((dget d "fallback_plan").getD (.list []))
  | _ => .list []

/-- `execute_plan`: runs the plan's steps sequentially, accumulating the
trace and the cross-step data.  An `Except.error` is a Python exception
escaping the function; a non-dict plan value or non-list step collection
would raise at the `.get`/iteration, modelled as errors here. -/
def execute_plan (oracle : ToolOracle) (now : Int) (plan : Value) :
    Except String ExecSummary :=
  match plan with
  | .dict _ =>
    match plan_steps plan with
    | .list steps =>
      match execute_steps oracle now steps {} [] with
      | .error e => .error e
      | .ok (acc, recs) =>
        .ok { execution_results := recs,
              completed_steps := (recs.filter (fun r => r.status == "success")).length,
              total_steps := steps.length,
              final_data := acc }
    | _ => .error "TypeError"
  | _ => .error "AttributeError"

/-- The unit captured by the planner's time-window regex. -/
inductive TUnit where
  | hour | day | week | month
deriving DecidableEq, Repr

def TUnit.str : TUnit → String
  | .hour => "hour"
  | .day => "day"
  | .week => "week"
  | .month => "month"

/-- Seconds subtracted per unit (`timedelta`; month is `days=number*30`). -/
def TUnit.seconds : TUnit → Nat
  | .hour => 3600
  | .day => 86400
  | .week => 604800
  | .month => 2592000

/-- Try `(past|last)\s+(\d+)\s+(day|week|month|hour)s?` at this position. -/
def matchTimeAt (cs : List Char) : Option (Nat × TUnit) :=
  let kw :=
    if "past".data.isPrefixOf cs then some (cs.drop 4)
    else if "last".data.isPrefixOf cs then some (cs.drop 4)
    else none
  match kw with
  | none => none
  | some rest =>
    if (rest.takeWhile isWS).isEmpty then none
    else
      let rest := rest.dropWhile isWS
      let ds := rest.takeWhile Char.isDigit
      if ds.isEmpty then none
      else
        let n := digitsToNat ds
        let rest := rest.dropWhile Char.isDigit
        if (rest.takeWhile isWS).isEmpty then none
        else
          let rest := rest.dropWhile isWS
          if "day".data.isPrefixOf rest then some (n, .day)
          else if "week".data.isPrefixOf rest then some (n, .week)
          else if "month".data.isPrefixOf rest then some (n, .month)
          else if "hour".data.isPrefixOf rest then some (n, .hour)
          else none

/-- `re.search` for the time-window pattern: leftmost match. -/
def timeSearch : List Char → Option (Nat × TUnit)
  | [] => none
  | c :: cs =>
    match matchTimeAt (c :: cs) with
    | some r => some r
    | none => timeSearch cs

/-- A plan step dict as the rule-based planner builds it. -/
def mkStep (s : Nat) (tool : String) (desc : String) (ps : Params) : Value :=
  .dict [("step", .int (s : Int)), ("tool", .str tool),
         ("description", .str desc), ("params", .dict ps)]

/-- The planner's repeated `if cond: plan.append({...}); step_num += 1`. -/
def addStepIf (cond : Bool) (tool desc : String) (ps : Params) :
    List Value × Nat → List Value × Nat
  | (plan, sn) => if cond then (plan ++ [mkStep sn tool desc ps], sn + 1) else (plan, sn)

def trendWords : List String := ["trending", "recent", "latest", "this week", "this month"]

def perspWords : List String :=
  ["perspective", "bias", "viewpoint", "political", "compare sources", "different views"]

def compareWords : List String := ["compare", "difference", "versus", "vs"]

def summaryWords : List String := ["summarize", "summary", "summaries", "key points"]

def sourceKeywords : List String := ["substack", "techcrunch", "ars technica", "wired", "verge"]

def topicWords : List String := ["topics", "themes", "what are", "top"]

/-- `_create_intelligent_plan`: the deterministic rule-based planner. -/
def _create_intelligent_plan (now : Int) (query : String) : List Value :=
  let ql := pyLower query
  let start : List Value × Nat :=
    match timeSearch ql.data with
    | some (n, u) =>
      ([mkStep 1 "get_by_timerange"
          ("Get articles from past " ++ toString n ++ " " ++ u.str ++
            (if 1 < n then "s" else ""))
          [("start_date", .str (isoformat (now - ((n * u.seconds : Nat) : Int)))),
           ("end_date", .str (isoformat now)),
           ("query", .str query)]], 2)
    | none =>
      if trendWords.any (fun w => strContains ql w) then
        ([mkStep 1 "get_trending" "Analyze trending topics from recent articles"
            [("hours_back", .int (if strContains ql "week" then 168 else 720))]], 2)
      else
        ([mkStep 1 "search_articles" ("Search for articles about: " ++ query)
            [("query", .str query), ("limit", .int 10)]], 2)
  let st := addStepIf (perspWords.any (fun w => strContains ql w)) "analyze_perspectives"
      "Analyze different perspectives from found articles" [("focus", .str query)] start
  let st := addStepIf (compareWords.any (fun w => strContains ql w)) "compare_articles"
      "Compare articles from different sources" [] st
  let st := addStepIf (summaryWords.any (fun w => strContains ql w)) "generate_summary"
      "Generate AI summaries of key articles" [("summary_type", .str "comprehensive")] st
  let detected := sourceKeywords.filter (fun s => strContains ql s)
  let st := addStepIf (!detected.isEmpty) "filter_by_source"
      ("Filter to " ++ String.intercalate ", " detected ++ " sources")
      [("source_types", .list (detected.map Value.str))] st
  let st := addStepIf (topicWords.any (fun w => strContains ql w)) "extract_topics"
      "Extract key topics and themes" [] st
  if st.1.length == 1 then
    st.1 ++ [mkStep st.2 "analyze_perspectives" "Analyze the found articles"
              [("focus", .str query)]]
  else
    st.1

/-- `_create_fallback_plan` delegates to the rule-based planner. -/
def _create_fallback_plan (now : Int) (query : String) : List Value :=
  _create_intelligent_plan now query

/-- Normalization of one raw LLM plan step (`_parse_plan_from_response`,
loop body): `none` models an exception inside the `try` (non-dict step, or
a `parameters`/`params` value that is not a dict), which sends the whole
parse to the rule-based fallback. -/
def normalize_step (i : Nat) (step : Value) : Option Value :=
  match step with
  | .dict d =>
    match dgetD d "parameters" (dgetD d "params" (.dict [])) with
    | .dict ps =>
      let cleaned := ps.filter (fun kv =>
        match kv.2 with
        | .str s => !(strContains (pyLower s) "results_from_step")
        | _ => true)
      some (.dict [("step", .int ((i + 1 : Nat) : Int)),
                   ("tool", dgetD d "tool_name" (dgetD d "tool" (.str "search_articles"))),
                   ("description", dgetD d "description" (.str "")),
                   ("params", .dict cleaned)])
    | _ => none
  | _ => none

def normalize_steps_from (i : Nat) : List Value → Option (List Value)
  | [] => some []
  | s :: rest =>
    match normalize_step i s with
    | none => none
    | some v => (normalize_steps_from (i + 1) rest).map (fun vs => v :: vs)

/-- The normalization loop over `plan_data['steps']`. -/
def normalize_steps (l : List Value) : Option (List Value) :=
  normalize_steps_from 0 l

/-- `_parse_plan_from_response` after the JSON-extraction library calls:
`parsed = none` models every path on which no step list is obtained (no
JSON found, JSON decode error, `steps` not a list, ...). -/
def _parse_plan_from_response (parsed : Option (List Value)) (now : Int)
    (query : String) : List Value :=
  match parsed with
  | none => _create_intelligent_plan now query
  | some steps =>
    match normalize_steps steps with
    | none => _create_intelligent_plan now query
    | some [] => _create_intelligent_plan now query
    | some ns => ns

/-- What the LLM planning call produces: an exception, or a response whose
JSON extraction yields the given raw step list (`none` when extraction or
decoding fails). -/
inductive LLMOutcome where
  | raise : String → LLMOutcome
  | response : Option (List Value) → LLMOutcome

/-- `create_plan`: `llm = none` is the unconfigured (mock) mode.  Note the
mock plan's steps carry their tool under the key `'action'`, exactly as in
the source. -/
def create_plan (llm : Option LLMOutcome) (now : Int) (user_query : String) : Value :=
  match llm with
  | none =>
    .dict [("plan", .list [
        .dict [("step", .int 1), ("action", .str "search_articles"),
               ("description", .str "Search for relevant articles"),
               ("params", .dict [("query", .str user_query)])],
        .dict [("step", .int 2), ("action", .str "generate_summary"),
               ("description", .str "Generate summaries"),
               ("params", .dict [])]]),
      ("estimated_time", .str "30 seconds"),
      ("query", .str user_query)]
  | some (.raise e) =>
    .dict [("error", .str e),
           ("fallback_plan", .list (_create_fallback_plan now user_query))]
  | some (.response parsed) =>
    .dict [("plan", .list (_parse_plan_from_response parsed now user_query)),
           ("estimated_time", .str "30-60 seconds"),
           ("query", .str user_query),
           ("rationale", .str "Plan created based on query analysis")]

/-- The Synthesizer's per-tool formatting (`_synthesize_final_answer`,
lines 734–755): `some` is an appended entry, `none` means the branch chain
falls through and the successful step contributes nothing. -/
def fmt_entry (tool : Value) (data : ToolResult) : Option String :=
  if tool == Value.str "get_trending" then
    some ("Trending Analysis: " ++ data.analysis)
  else if tool == Value.str "extract_topics" then
    some ("Extracted Topics: " ++ String.intercalate ", " data.topics)
  else if tool == Value.str "search_articles" then
    some ("Found " ++ toString data.count ++ " relevant articles:\n" ++
      String.intercalate "\n"
        ((data.results.take 10).map (fun r =>
          "  - " ++ r.title ++ " (ID: " ++ toString r.article_id ++ ")")))
  else if tool == Value.str "get_by_timerange" then
    some ("Found " ++ toString data.count ++ " articles in time range:\n" ++
      String.intercalate "\n"
        ((data.articles.take 10).map (fun a =>
          "  - " ++ a.title ++ " (ID: " ++ toString a.id ++ ")")))
  else if tool == Value.str "filter_by_source" then
    some ("Filtered to " ++ toString data.total_filtered ++
      " articles from specified sources")
  else if tool == Value.str "generate_summary" then
    some ("Article Summary: " ++ data.summary)
  else
    none

/-- The `results_summary` list the Synthesizer builds: one formatted entry
per successful step whose tool has a formatting branch; error steps and
tools without a branch contribute nothing. -/
def results_summary : List ExecRecord → List String
  | [] => []
  | r :: rest =>
    if r.status == "success" then
      match fmt_entry r.tool (r.result.getD {}) with
      | some s => s :: results_summary rest
      | none => results_summary rest
    else
      results_summary rest

/-- The synthesis prompt (`_synthesize_final_answer`): the research results
section is the newline-join of `results_summary`. -/
def synthesis_prompt (user_query : String) (recs : List ExecRecord) : String :=
  "Based on the research results below, provide a direct, concise answer to this question:\n\n" ++
  "Question: " ++ user_query ++ "\n\nResearch Results:\n" ++
  String.intercalate "\n" (results_summary recs) ++
  "\n\nProvide a clear, focused answer that directly addresses the question. " ++
  "If the question asks for a specific number of items (e.g., \"top 3\"), " ++
  "limit your answer to exactly that many items."

/-- An article row as read from the relational store. -/
structure ArticleRow where
  id : Int
  title : String
  content : String
  source : String
  url : String
  published_date : Option Int
deriving Repr, DecidableEq, Inhabited

/-- `_get_article_details_tool` with its database session made explicit:
the second component records whether `db.close()` was executed before the
tool returned.  The query's outcome (row, no row, or a raised exception)
is the oracle argument. -/
def _get_article_details_tool (dbQuery : Except String (Option ArticleRow)) :
    ToolResult × Bool :=
  match dbQuery with
  | .error e => ({ success := false, error := some e }, false)
  | .ok none => ({ success := false, error := some "Article not found" }, true)
  | .ok (some _) => ({ success := true }, true)

/-- `categorized[source_type].append(article.id)`, creating the key on
first use (dict insertion order). -/
def addCat (cat : List (String × List Int)) (k : String) (i : Int) :
    List (String × List Int) :=
  if (cat.find? (fun p => p.1 == k)).isSome then
    cat.map (fun p => if p.1 == k then (p.1, p.2 ++ [i]) else p)
  else
    cat ++ [(k, [i])]

/-- The source-categorization loop of `_filter_by_source_tool`. -/
def categorize (articles : List ArticleRow) (source_types : List String) :
    List (String × List Int) :=
  articles.foldl
    (fun cat a =>
      source_types.foldl
        (fun cat st =>
          if strContains (pyLower a.source) (pyLower st) then addCat cat st a.id else cat)
        cat)
    []

/-- `_filter_by_source_tool` with the session made explicit, as for
`_get_article_details_tool`. -/
def _filter_by_source_tool (source_types : List String)
    (dbQuery : Except String (List ArticleRow)) : ToolResult × Bool :=
  match dbQuery with
  | .error e => ({ success := false, error := some e }, false)
  | .ok articles =>
    let cat := categorize articles source_types
    ({ success := true, categorized := cat,
       total_filtered := cat.foldl (fun n p => n + (p.2.length : Int)) 0 }, true)

/-! Helper lemmas about the dict operations and the equality test. -/

theorem str_beq_str (a b : String) : (Value.str a == Value.str b) = (a == b) := rfl

theorem int_beq_int (a b : Int) : (Value.int a == Value.int b) = (a == b) := rfl

theorem dget_dset_self (d : Params) (k : String) (v : Value) :
    dget (dset d k v) k = some v := by
  unfold dset
  by_cases h : (d.find? (fun kv => kv.1 == k)).isSome
  · simp only [h, if_true]
    induction d with
    | nil => simp at h
    | cons a t ih =>
      by_cases ha : a.1 == k
      · simp [dget, List.find?, ha]
      · simp only [List.find?, ha] at h
        simp [dget, List.find?, ha]
        have := ih (by simpa [List.find?] using h)
        simpa [dget] using this
  · simp only [h, if_false]
    induction d with
    | nil => simp [dget, List.find?]
    | cons a t ih =>
      by_cases ha : a.1 == k
      · simp [List.find?, ha] at h
      · simp only [List.find?, ha] at h
        simp [dget, List.find?, ha]
        have := ih (by simpa [List.find?] using h)
        simpa [dget] using this

/-! Accumulator lookup keys, for stating the injection priority orders. -/

/-- The four well-known Accumulator keys. -/
inductive AccKey where
  | filteredK | timerangeK | searchK | idsK
deriving DecidableEq, Repr

/-- The `article_ids` value a given Accumulator key yields when present,
with the per-key projections the Executor applies. -/
def accumIdValue (acc : Accum) : AccKey → Option Value
  | .filteredK => acc.filtered_article_ids.map (fun l => .list (l.map Value.int))
  | .timerangeK => acc.timerange_articles.map (fun l => .list (l.map (fun a => .int a.id)))
  | .searchK => acc.search_results.map (fun l => .list (l.map (fun r => .int r.article_id)))
  | .idsK => acc.article_ids.map (fun l => .list (l.map Value.int))

/-- Consult the keys in order; the first present key wins. -/
def firstPresent (acc : Accum) : List AccKey → Option Value
  | [] => none
  | k :: ks =>
    match accumIdValue acc k with
    | some v => some v
    | none => firstPresent acc ks

/-- The lookup order the spec claims for a `filter_by_source` step's
injected `article_ids` (from the spec's words, for comparison with the
code's order). -/
def c4_claim_order : List AccKey := [.filteredK, .timerangeK, .searchK, .idsK]

/-! Claims C3, C8, C9, C4, C7. -/

/-- C3: the claim says every step's relative-time `start_date`/`end_date`
strings are resolved by the Executor before the tool is invoked.  The code
defines the resolver but applies it only inside the `generate_summary`
branch of the parameter fixing, so a `get_by_timerange` step's
`"48_hours_ago"` reaches the tool unresolved (the tool then fails on
`fromisoformat`); the resolver itself does map `"48_hours_ago"` and
`"2 days ago"` to `now - 48h`, and a `generate_summary` step (which takes
no dates) would have them resolved. -/
theorem relative_time_resolved_only_for_generate_summary (now : Int) :
    fix_step_params (.str "get_by_timerange")
      [("start_date", .str "48_hours_ago"), ("end_date", .str "now")] now
      = [("start_date", .str "48_hours_ago"), ("end_date", .str "now")]
    ∧ parse_relative_time "48_hours_ago" now = isoformat (now - 48 * 3600)
    ∧ parse_relative_time "2 days ago" now = isoformat (now - 48 * 3600)
    ∧ fix_step_params (.str "generate_summary")
        [("start_date", .str "48_hours_ago")] now
      = [("start_date", .str (isoformat (now - 48 * 3600)))] :=
  ⟨rfl, rfl, rfl, rfl⟩

/-- C8: the claim says database sessions are released on every exit path.
In `_get_article_details_tool` and `_filter_by_source_tool` the
`db.close()` call sits after the query with no `finally`, so when the query
raises, the exception handler returns a failure envelope with the session
still open; only the non-raising paths close it. -/
theorem db_session_left_open_on_query_raise :
    (_get_article_details_tool (.error "db down")).2 = false
    ∧ (_get_article_details_tool (.error "db down")).1.success = false
    ∧ (_filter_by_source_tool ["substack"] (.error "db down")).2 = false
    ∧ (_filter_by_source_tool ["substack"] (.error "db down")).1.success = false
    ∧ (_get_article_details_tool (.ok none)).2 = true
    ∧ (_get_article_details_tool (.ok (some ⟨1, "t", "c", "s", "u", none⟩))).2 = true
    ∧ (_filter_by_source_tool ["substack"]
        (.ok [⟨1, "t", "c", "MySubstack Blog", "u", none⟩])).2 = true := by
  decide

/-- C9: for an `extract_topics` step lacking `article_ids`, the Executor
fills it from the Accumulator consulting, in order, `filtered_article_ids`,
then `timerange_articles`, then `search_results`, then `article_ids` —
in particular `filtered_article_ids` wins over a populated
`search_results`. -/
theorem extract_topics_injection_priority (acc : Accum) (params : Params)
    (h : dget params "article_ids" = none) :
    dget (inject_params (.str "extract_topics") params acc) "article_ids"
      = firstPresent acc [.filteredK, .timerangeK, .searchK, .idsK] := by
  obtain ⟨sr, tr, ids, fil⟩ := acc
  unfold inject_params
  simp only [show (Value.str "extract_topics" == Value.str "analyze_perspectives") = false from rfl,
             show (Value.str "extract_topics" == Value.str "filter_by_source") = false from rfl,
             show (Value.str "extract_topics" == Value.str "extract_topics") = true from rfl,
             show (Value.str "extract_topics" == Value.str "generate_summary") = false from rfl,
             Bool.false_and, Bool.true_and, if_false, if_true, Bool.false_eq_true]
  cases fil with
  | some l => simp [h, dget_dset_self, firstPresent, accumIdValue]
  | none =>
    cases tr with
    | some l => simp [h, dget_dset_self, firstPresent, accumIdValue]
    | none =>
      cases sr with
      | some l => simp [h, dget_dset_self, firstPresent, accumIdValue]
      | none =>
        cases ids with
        | some l => simp [h, dget_dset_self, firstPresent, accumIdValue]
        | none => simp [h, firstPresent, accumIdValue]

/-- Witness for C9 at a concrete state with both `search_results` and
`filtered_article_ids` populated: the injected ids come from
`filtered_article_ids` (the id 3, not the search hit 10). -/
theorem extract_topics_injection_priority_witness :
    dget ([] : Params) "article_ids" = none
    ∧ dget (inject_params (.str "extract_topics") []
        { search_results := some [⟨10, "hit"⟩], filtered_article_ids := some [3] })
        "article_ids"
      = firstPresent
          { search_results := some [⟨10, "hit"⟩], filtered_article_ids := some [3] }
          [.filteredK, .timerangeK, .searchK, .idsK]
    ∧ firstPresent
        { search_results := some [⟨10, "hit"⟩], filtered_article_ids := some [3] }
        [.filteredK, .timerangeK, .searchK, .idsK] = some (.list [.int 3]) :=
  ⟨rfl,
   extract_topics_injection_priority
     { search_results := some [⟨10, "hit"⟩], filtered_article_ids := some [3] } [] rfl,
   rfl⟩

/-- Counterexample to C4 as stated: with `filtered_article_ids = [1]` and
`timerange_articles = [id 2]` both present, the Executor injects `[2]` into
a `filter_by_source` step, while the claimed order (`filtered_article_ids`
first) would give `[1]`. -/
theorem filter_by_source_ignores_filtered_ids_cex :
    dget (inject_params (.str "filter_by_source") []
        { filtered_article_ids := some [1],
          timerange_articles := some [⟨2, "t", "s", "d"⟩] }) "article_ids"
      = some (.list [.int 2])
    ∧ firstPresent
        { filtered_article_ids := some [1],
          timerange_articles := some [⟨2, "t", "s", "d"⟩] } c4_claim_order
      = some (.list [.int 1])
    ∧ ¬ (Value.list [.int 2] = Value.list [.int 1]) := by
  refine ⟨rfl, rfl, ?_⟩
  intro h
  simp at h

/-- C4 amended: for a `filter_by_source` step lacking `article_ids`, the
Executor consults `timerange_articles`, then `search_results`, then
`article_ids`; it never consults `filtered_article_ids` (that key appears
only in the `extract_topics` lookup chain). -/
theorem filter_by_source_injection_order (acc : Accum) (params : Params)
    (h : dget params "article_ids" = none) :
    dget (inject_params (.str "filter_by_source") params acc) "article_ids"
      = firstPresent acc [.timerangeK, .searchK, .idsK] := by
  obtain ⟨sr, tr, ids, fil⟩ := acc
  unfold inject_params
  simp only [show (Value.str "filter_by_source" == Value.str "analyze_perspectives") = false from rfl,
             show (Value.str "filter_by_source" == Value.str "filter_by_source") = true from rfl,
             show (Value.str "filter_by_source" == Value.str "extract_topics") = false from rfl,
             show (Value.str "filter_by_source" == Value.str "generate_summary") = false from rfl,
             Bool.false_and, Bool.true_and, if_false, if_true]
  cases tr with
  | some l => simp [h, dget_dset_self, firstPresent, accumIdValue]
  | none =>
    cases sr with
    | some l => simp [h, dget_dset_self, firstPresent, accumIdValue]
    | none =>
      cases ids with
      | some l => simp [h, dget_dset_self, firstPresent, accumIdValue]
      | none => cases fil <;> simp [h, firstPresent, accumIdValue]

/-- Witness for the amended C4 at a concrete state: with both
`timerange_articles` and a generic `article_ids` populated, the injected
ids are the time-range ones. -/
theorem filter_by_source_injection_order_witness :
    dget ([] : Params) "article_ids" = none
    ∧ dget (inject_params (.str "filter_by_source") []
        { timerange_articles := some [⟨2, "t", "s", "d"⟩], article_ids := some [9] })
        "article_ids"
      = firstPresent
          { timerange_articles := some [⟨2, "t", "s", "d"⟩], article_ids := some [9] }
          [.timerangeK, .searchK, .idsK]
    ∧ firstPresent
        { timerange_articles := some [⟨2, "t", "s", "d"⟩], article_ids := some [9] }
        [.timerangeK, .searchK, .idsK] = some (.list [.int 2]) :=
  ⟨rfl,
   filter_by_source_injection_order
     { timerange_articles := some [⟨2, "t", "s", "d"⟩], article_ids := some [9] } [] rfl,
   rfl⟩

/-- Counterexample to C7 as stated: the generic `article_ids` key does not
have a single writing tool — both `get_trending` and `get_by_timerange`
(and also `filter_by_source`) write it. -/
theorem article_ids_written_by_two_tools_cex :
    (accumulate (.str "get_trending")
        { success := true, article_ids := [5] } {}).article_ids
      ≠ ({} : Accum).article_ids
    ∧ (accumulate (.str "get_by_timerange")
        { success := true, articles := [⟨7, "t", "s", "d"⟩] } {}).article_ids
      ≠ ({} : Accum).article_ids
    ∧ ("get_trending" : String) ≠ "get_by_timerange" := by
  decide

/-- Ownership check for the amended C7: a change to `search_results`,
`timerange_articles` or `filtered_article_ids` implies the writing tool is
its unique owner, and a change to `article_ids` implies the tool is one of
`get_by_timerange`, `get_trending`, `filter_by_source`. -/
def writerOk (tool : Value) (r : ToolResult) (a : Accum) : Bool :=
  let b := accumulate tool r a
  (b.search_results == a.search_results || tool == Value.str "search_articles")
  && (b.timerange_articles == a.timerange_articles || tool == Value.str "get_by_timerange")
  && (b.filtered_article_ids == a.filtered_article_ids || tool == Value.str "filter_by_source")
  && (b.article_ids == a.article_ids || tool == Value.str "get_by_timerange"
      || tool == Value.str "get_trending" || tool == Value.str "filter_by_source")

/-- C7 amended: each of `search_results`, `timerange_articles` and
`filtered_article_ids` is written by exactly its owning tool, but the
generic `article_ids` key is written by three tools (`get_by_timerange`,
`get_trending`, `filter_by_source`), not one. -/
theorem accumulator_key_ownership (tool : Value) (r : ToolResult) (a : Accum) :
    writerOk tool r a = true := by
  unfold writerOk accumulate
  by_cases hs : r.success <;>
    by_cases h1 : tool == Value.str "search_articles" <;>
      by_cases h2 : tool == Value.str "get_by_timerange" <;>
        by_cases h3 : tool == Value.str "get_trending" <;>
          by_cases h4 : tool == Value.str "filter_by_source" <;>
            simp [hs, h1, h2, h3, h4]

/-! Claim C5: which steps contribute an entry to the synthesis prompt. -/

/-- The six tools the Synthesizer's branch chain formats. -/
def synthTools : List String :=
  ["get_trending", "extract_topics", "search_articles", "get_by_timerange",
   "filter_by_source", "generate_summary"]

def isSynthTool (v : Value) : Bool :=
  match v with
  | .str s => synthTools.contains s
  | _ => false

theorem fmt_entry_isSome (v : Value) (d : ToolResult) :
    (fmt_entry v d).isSome = isSynthTool v := by
  cases v with
  | str s =>
    unfold fmt_entry isSynthTool synthTools
    by_cases h1 : s = "get_trending" <;>
      by_cases h2 : s = "extract_topics" <;>
        by_cases h3 : s = "search_articles" <;>
          by_cases h4 : s = "get_by_timerange" <;>
            by_cases h5 : s = "filter_by_source" <;>
              by_cases h6 : s = "generate_summary" <;>
                simp_all [str_beq_str]
  | null => rfl
  | bool b => rfl
  | int n => rfl
  | list l => rfl
  | dict d2 => rfl

def successSix (r : ExecRecord) : Bool :=
  r.status == "success" && isSynthTool r.tool

def entryOf (r : ExecRecord) : String :=
  (fmt_entry r.tool (r.result.getD {})).getD ""

/-- Counterexample to C5 as stated: a successful `analyze_perspectives`
step — a registered tool — contributes no entry to the synthesis summary,
so the prompt does not contain an entry for every successful step of the
ten registered tools. -/
theorem synthesis_omits_successful_analyze_perspectives_cex :
    results_summary [{ step := .int 1, tool := .str "analyze_perspectives",
                       description := some (.str "d"), status := "success",
                       result := some { success := true, analysis := "A" } }] = [] := rfl

/-- C5 amended: the synthesis summary joined into the prompt holds exactly
one formatted entry per step whose status is `success` and whose tool is
one of the six formatted tools (`get_trending`, `extract_topics`,
`search_articles`, `get_by_timerange`, `filter_by_source`,
`generate_summary`); error steps and the other four tools contribute
nothing. -/
theorem results_summary_exactly_six_tools (recs : List ExecRecord) :
    results_summary recs = (recs.filter successSix).map entryOf := by
  induction recs with
  | nil => rfl
  | cons r rest ih =>
    unfold results_summary
    by_cases hs : r.status == "success"
    · cases hfm : fmt_entry r.tool (r.result.getD {}) with
      | some s =>
        have hsix : isSynthTool r.tool = true := by
          rw [← fmt_entry_isSome r.tool (r.result.getD {}), hfm]; rfl
        simp [hs, hfm, List.filter, successSix, hsix, entryOf, ih]
      | none =>
        have hsix : isSynthTool r.tool = false := by
          rw [← fmt_entry_isSome r.tool (r.result.getD {}), hfm]; rfl
        simp [hs, hfm, List.filter, successSix, hsix, ih]
    · simp [hs, List.filter, successSix, ih]

/-! Claim C1: executing the mock plan raises. -/

/-- C1: the claim (and the spec) says every plan returned by `create_plan`
can be executed and `research` never raises.  The mock plan returned when
the LLM is unconfigured stores each step's tool under the key `action`,
while `execute_plan` reads `step_info` at key `tool` before its `try`
block, so executing the mock plan raises `KeyError` on the very first step,
for every query and every tool behaviour. -/
theorem mock_plan_execution_raises_key_error (oracle : ToolOracle) (now : Int)
    (q : String) :
    execute_plan oracle now (create_plan none now q) = .error "KeyError: 'tool'" := rfl

/-! Claim C6: plans are non-empty with contiguous 1-based ordinals. -/

/-- Ordinal check: the steps carry `step` values k, k+1, ... in order. -/
def contigAux : Nat → List Value → Bool
  | _, [] => true
  | k, v :: rest =>
    (match v with
     | .dict d => dget d "step" == some (.int (k : Int))
     | _ => false) && contigAux (k + 1) rest

theorem contigAux_cons (k : Nat) (v : Value) (rest : List Value) :
    contigAux k (v :: rest)
      = ((match v with
          | .dict d => dget d "step" == some (.int (k : Int))
          | _ => false) && contigAux (k + 1) rest) := rfl

theorem contig_append (l l' : List Value) (k : Nat)
    (h : contigAux k l = true) (h' : contigAux (k + l.length) l' = true) :
    contigAux k (l ++ l') = true := by
  induction l generalizing k with
  | nil => simpa using h'
  | cons a t ih =>
    rw [List.cons_append, contigAux_cons]
    rw [contigAux_cons, Bool.and_eq_true] at h
    rw [Bool.and_eq_true]
    refine ⟨h.1, ih (k + 1) h.2 ?_⟩
    have heq : k + 1 + t.length = k + (a :: t).length := by
      simp [List.length_cons]; omega
    rw [heq]; exact h'

theorem contig_mkStep (k : Nat) (t d : String) (p : Params) :
    contigAux k [mkStep k t d p] = true := by
  simp [contigAux, mkStep, dget, List.find?, int_beq_int]

/-- The rule-based planner's loop invariant: the plan built so far is
non-empty, contiguous from 1, and the next ordinal is its length plus 1. -/
def PlanInv (ps : List Value × Nat) : Prop :=
  contigAux 1 ps.1 = true ∧ ps.2 = ps.1.length + 1 ∧ ps.1 ≠ []

theorem addStepIf_inv (c : Bool) (t d : String) (p : Params) (ps : List Value × Nat)
    (h : PlanInv ps) : PlanInv (addStepIf c t d p ps) := by
  obtain ⟨l, sn⟩ := ps
  obtain ⟨h1, h2, h3⟩ := h
  dsimp only at h1 h2 h3
  unfold addStepIf
  cases c with
  | false => exact ⟨h1, h2, h3⟩
  | true =>
    simp only [if_true]
    subst h2
    refine ⟨?_, by simp, by simp⟩
    apply contig_append _ _ _ h1
    rw [Nat.add_comm 1 l.length]
    exact contig_mkStep _ t d p

theorem inv_single (t d : String) (p : Params) : PlanInv ([mkStep 1 t d p], 2) :=
  ⟨contig_mkStep 1 t d p, rfl, by simp⟩

theorem final_plan_ok (st : List Value × Nat) (h : PlanInv st) (t d : String) (p : Params) :
    (if st.1.length == 1 then st.1 ++ [mkStep st.2 t d p] else st.1) ≠ []
    ∧ contigAux 1 (if st.1.length == 1 then st.1 ++ [mkStep st.2 t d p] else st.1) = true := by
  obtain ⟨l, sn⟩ := st
  obtain ⟨h1, h2, h3⟩ := h
  dsimp only at h1 h2 h3 ⊢
  by_cases hl : (l.length == 1) = true
  · simp only [hl, if_true]
    subst h2
    refine ⟨by simp, ?_⟩
    apply contig_append _ _ _ h1
    rw [Nat.add_comm 1 l.length]
    exact contig_mkStep _ t d p
  · rw [Bool.not_eq_true] at hl
    simp only [hl, if_false]
    exact ⟨h3, h1⟩

theorem intelligent_plan_ok (now : Int) (q : String) :
    _create_intelligent_plan now q ≠ []
    ∧ contigAux 1 (_create_intelligent_plan now q) = true := by
  unfold _create_intelligent_plan
  refine final_plan_ok _ ?_ _ _ _
  apply addStepIf_inv
  apply addStepIf_inv
  apply addStepIf_inv
  apply addStepIf_inv
  apply addStepIf_inv
  cases htm : timeSearch (pyLower q).data with
  | some r =>
    obtain ⟨n, u⟩ := r
    exact inv_single _ _ _
  | none =>
    by_cases htr : trendWords.any (fun w => strContains (pyLower q) w)
    · simp only [htr, if_true]
      exact inv_single _ _ _
    · simp only [htr, if_false]
      exact inv_single _ _ _

theorem normalize_step_shape (i : Nat) (s v : Value)
    (h : normalize_step i s = some v) :
    ∃ rest, v = .dict (("step", .int ((i + 1 : Nat) : Int)) :: rest) := by
  cases s with
  | dict d =>
    simp only [normalize_step] at h
    cases hp : dgetD d "parameters" (dgetD d "params" (.dict [])) with
    | dict ps =>
      rw [hp] at h
      simp only [Option.some.injEq] at h
      exact ⟨_, h.symm⟩
    | null => rw [hp] at h; cases h
    | bool b => rw [hp] at h; cases h
    | int n => rw [hp] at h; cases h
    | str s2 => rw [hp] at h; cases h
    | list l => rw [hp] at h; cases h
  | null => cases h
  | bool b => cases h
  | int n => cases h
  | str s2 => cases h
  | list l => cases h

theorem normalize_contig (l : List Value) (i : Nat) (ns : List Value)
    (h : normalize_steps_from i l = some ns) : contigAux (i + 1) ns = true := by
  induction l generalizing i ns with
  | nil =>
    unfold normalize_steps_from at h
    simp only [Option.some.injEq] at h
    subst h
    rfl
  | cons s rest ih =>
    unfold normalize_steps_from at h
    cases hns : normalize_step i s with
    | none => rw [hns] at h; cases h
    | some v =>
      rw [hns] at h
      cases hrest : normalize_steps_from (i + 1) rest with
      | none => rw [hrest] at h; cases h
      | some vs =>
        rw [hrest] at h
        simp only [Option.map_some', Option.some.injEq] at h
        subst h
        rw [contigAux_cons, Bool.and_eq_true]
        obtain ⟨tail, hv⟩ := normalize_step_shape i s v hns
        subst hv
        constructor
        · simp [dget, List.find?, int_beq_int]
        · exact ih (i + 1) vs hrest

/-- C6: for every query and every LLM outcome — unconfigured (mock plan),
a parsed response (normalized steps, or the rule-based fallback when
normalization yields zero steps or fails), or a raised planning call
(fallback plan) — the step list `execute_plan` would iterate is a
non-empty list whose `step` ordinals are the contiguous sequence 1..n in
list position. -/
theorem create_plan_nonempty_contiguous_ordinals (llm : Option LLMOutcome)
    (now : Int) (q : String) :
    ∃ l, plan_steps (create_plan llm now q) = .list l
      ∧ l ≠ [] ∧ contigAux 1 l = true := by
  cases llm with
  | none => exact ⟨_, rfl, by simp, by rfl⟩
  | some o =>
    cases o with
    | raise e =>
      refine ⟨_, rfl, ?_, ?_⟩
      · exact (intelligent_plan_ok now q).1
      · exact (intelligent_plan_ok now q).2
    | response parsed =>
      cases parsed with
      | none =>
        exact ⟨_, rfl, (intelligent_plan_ok now q).1, (intelligent_plan_ok now q).2⟩
      | some steps =>
        cases hn : normalize_steps steps with
        | none =>
          refine ⟨_, ?_, (intelligent_plan_ok now q).1, (intelligent_plan_ok now q).2⟩
          show Value.list (_parse_plan_from_response (some steps) now q) = _
          simp only [_parse_plan_from_response]
          rw [hn]
        | some ns =>
          cases ns with
          | nil =>
            refine ⟨_, ?_, (intelligent_plan_ok now q).1, (intelligent_plan_ok now q).2⟩
            show Value.list (_parse_plan_from_response (some steps) now q) = _
            simp only [_parse_plan_from_response]
            rw [hn]
          | cons v vs =>
            refine ⟨v :: vs, ?_, by simp, ?_⟩
            · show Value.list (_parse_plan_from_response (some steps) now q) = _
              simp only [_parse_plan_from_response]
              rw [hn]
            · simpa using normalize_contig steps 0 (v :: vs) hn

/-! Claim C2: one execution record per step, in order, never aborting. -/

/-- A step dict carrying the four fields `step`, `tool`, `description`,
`params` (the shape C2 speaks about). -/
def wfStep (v : Value) : Bool :=
  match v with
  | .dict d =>
    (dget d "step").isSome && (dget d "tool").isSome && (dget d "description").isSome
      && (dget d "params").isSome
  | _ => false

def stepField (v : Value) : Value :=
  match v with
  | .dict d => (dget d "step").getD .null
  | _ => .null

def toolField (v : Value) : Value :=
  match v with
  | .dict d => (dget d "tool").getD .null
  | _ => .null

/-- What C2 requires of the record a step produced: it carries the step's
own ordinal and tool, and an unregistered tool name yields status `error`
with the exact `Unknown tool: <name>` message. -/
def recMatchesP (v : Value) (r : ExecRecord) : Prop :=
  r.step = stepField v ∧ r.tool = toolField v ∧
  ∀ s : String, toolField v = .str s → ¬ s ∈ toolNames →
    r.status = "error" ∧ r.error = some ("Unknown tool: " ++ s)

theorem registered_mem (s : String) (hreg : isRegistered (.str s) = true) :
    s ∈ toolNames := by
  simpa [isRegistered, toolNames, List.contains] using hreg

theorem execute_step_wf (oracle : ToolOracle) (now : Int) (acc : Accum)
    (recs : List ExecRecord) (v : Value) (h : wfStep v = true) :
    ∃ acc2 r, execute_step oracle now acc recs v = .ok (acc2, recs ++ [r])
      ∧ recMatchesP v r := by
  cases v with
  | dict d =>
    simp only [wfStep, Bool.and_eq_true] at h
    obtain ⟨⟨⟨hstep, htool⟩, hdesc⟩, _hparams⟩ := h
    obtain ⟨sv, hsv⟩ := Option.isSome_iff_exists.mp hstep
    obtain ⟨tv, htv⟩ := Option.isSome_iff_exists.mp htool
    obtain ⟨dv, hdv⟩ := Option.isSome_iff_exists.mp hdesc
    have hsf : stepField (.dict d) = sv := by simp [stepField, hsv]
    have htf : toolField (.dict d) = tv := by simp [toolField, htv]
    by_cases hreg : isRegistered tv = true
    · simp only [execute_step, hsv, hreg, Bool.not_true, Bool.false_eq_true,
                 if_false, htv, hdv]
      have hvac : ∀ s : String, toolField (.dict d) = .str s → ¬ s ∈ toolNames →
          True → False := by
        intro s hs hmem _
        rw [htf] at hs
        exact hmem (registered_mem s (hs ▸ hreg))
      cases hgp : (dget d "params").getD (.dict []) with
      | dict ps =>
        dsimp only
        cases ho : oracle (toolKey tv) (inject_params tv (fix_step_params tv ps now) acc) with
        | error e =>
          refine ⟨acc, _, rfl, hsf.symm, htf.symm, ?_⟩
          intro s hs hmem
          exact absurd trivial (hvac s hs hmem)
        | ok result =>
          refine ⟨_, _, rfl, hsf.symm, htf.symm, ?_⟩
          intro s hs hmem
          exact absurd trivial (hvac s hs hmem)
      | null =>
        refine ⟨acc, _, rfl, hsf.symm, htf.symm, ?_⟩
        intro s hs hmem
        exact absurd trivial (hvac s hs hmem)
      | bool b =>
        refine ⟨acc, _, rfl, hsf.symm, htf.symm, ?_⟩
        intro s hs hmem
        exact absurd trivial (hvac s hs hmem)
      | int n =>
        refine ⟨acc, _, rfl, hsf.symm, htf.symm, ?_⟩
        intro s hs hmem
        exact absurd trivial (hvac s hs hmem)
      | str s2 =>
        refine ⟨acc, _, rfl, hsf.symm, htf.symm, ?_⟩
        intro s hs hmem
        exact absurd trivial (hvac s hs hmem)
      | list l =>
        refine ⟨acc, _, rfl, hsf.symm, htf.symm, ?_⟩
        intro s hs hmem
        exact absurd trivial (hvac s hs hmem)
    · rw [Bool.not_eq_true] at hreg
      simp only [execute_step, hsv, htv, hreg, Bool.not_false, if_true]
      refine ⟨acc, _, rfl, hsf.symm, htf.symm, ?_⟩
      intro s hs hmem
      rw [htf] at hs
      subst hs
      exact ⟨rfl, rfl⟩
  | null => cases h
  | bool b => cases h
  | int n => cases h
  | str s2 => cases h
  | list l => cases h

theorem execute_steps_wf (oracle : ToolOracle) (now : Int) (steps : List Value) :
    ∀ acc recs, steps.all wfStep = true →
    ∃ acc2 newrecs, execute_steps oracle now steps acc recs = .ok (acc2, recs ++ newrecs)
      ∧ List.Forall₂ recMatchesP steps newrecs := by
  induction steps with
  | nil =>
    intro acc recs _
    exact ⟨acc, [], by simp [execute_steps], List.Forall₂.nil⟩
  | cons s rest ih =>
    intro acc recs h
    simp only [List.all_cons, Bool.and_eq_true] at h
    obtain ⟨acc1, r, hstep, hmatch⟩ := execute_step_wf oracle now acc recs s h.1
    obtain ⟨acc2, newrecs, hrest, hforall⟩ := ih acc1 (recs ++ [r]) h.2
    refine ⟨acc2, r :: newrecs, ?_, List.Forall₂.cons hmatch hforall⟩
    simp only [execute_steps]
    rw [hstep]
    simpa [List.append_assoc] using hrest

/-- C2: for every plan whose steps each carry the four fields, under every
tool behaviour (success, failure envelope, or raised invocation),
`execute_plan` returns normally with exactly one execution record per step,
in plan order, each carrying its step's ordinal and tool; a step naming a
tool outside the registry yields a record with status `error` and error
string `Unknown tool: <name>`, and the remaining steps still run (the
records after it exist). -/
theorem execute_plan_one_record_per_step (oracle : ToolOracle) (now : Int)
    (steps : List Value) (h : steps.all wfStep = true) :
    ∃ s, execute_plan oracle now (.dict [("plan", .list steps)]) = .ok s
      ∧ s.total_steps = steps.length
      ∧ s.execution_results.length = steps.length
      ∧ List.Forall₂ recMatchesP steps s.execution_results := by
  obtain ⟨acc2, newrecs, hx, hf⟩ := execute_steps_wf oracle now steps {} [] h
  simp only [List.nil_append] at hx
  refine ⟨{ execution_results := newrecs,
            completed_steps := (newrecs.filter (fun r => r.status == "success")).length,
            total_steps := steps.length,
            final_data := acc2 }, ?_, rfl, hf.length_eq.symm, hf⟩
  show ((match execute_steps oracle now steps {} [] with
    | .error e => Except.error e
    | .ok (acc, recs) =>
      Except.ok { execution_results := recs,
                  completed_steps := (recs.filter (fun r => r.status == "success")).length,
                  total_steps := steps.length,
                  final_data := acc }) : Except String ExecSummary) = _
  rw [hx]

/-- A concrete 3-step plan for the C2 witness; step 2 names a tool absent
from the registry. -/
def c2_witness_steps : List Value :=
  [.dict [("step", .int 1), ("tool", .str "search_articles"),
          ("description", .str "search"), ("params", .dict [("query", .str "ai"), ("limit", .int 10)])],
   .dict [("step", .int 2), ("tool", .str "no_such_tool"),
          ("description", .str "bogus"), ("params", .dict [])],
   .dict [("step", .int 3), ("tool", .str "extract_topics"),
          ("description", .str "topics"), ("params", .dict [])]]

def c2_witness_oracle : ToolOracle :=
  fun _ _ => .ok { success := true }

/-- Witness for C2 at the concrete 3-step plan with an unknown tool at
step 2. -/
theorem execute_plan_one_record_per_step_witness :
    (c2_witness_steps.all wfStep = true)
    ∧ ∃ s, execute_plan c2_witness_oracle 0 (.dict [("plan", .list c2_witness_steps)]) = .ok s
        ∧ s.total_steps = c2_witness_steps.length
        ∧ s.execution_results.length = c2_witness_steps.length
        ∧ List.Forall₂ recMatchesP c2_witness_steps s.execution_results :=
  ⟨by decide,
   execute_plan_one_record_per_step c2_witness_oracle 0 c2_witness_steps (by decide)⟩

/-! Claim C10: missing tool name defaults to search_articles. -/

/-- C10: a raw LLM plan step carrying neither `tool_name` nor `tool` is not
rejected by normalization; the normalized step's `tool` is
`search_articles`. -/
theorem normalize_step_missing_tool_defaults (i : Nat) (d : List (String × Value))
    (ns : Value) (h1 : dget d "tool_name" = none) (h2 : dget d "tool" = none)
    (h3 : normalize_step i (.dict d) = some ns) :
    ∃ nd, ns = .dict nd ∧ dget nd "tool" = some (.str "search_articles") := by
  simp only [normalize_step] at h3
  cases hp : dgetD d "parameters" (dgetD d "params" (.dict [])) with
  | dict ps =>
    rw [hp] at h3
    simp only [Option.some.injEq] at h3
    refine ⟨_, h3.symm, ?_⟩
    show some (dgetD d "tool_name" (dgetD d "tool" (Value.str "search_articles")))
      = some (Value.str "search_articles")
    simp [dgetD, h1, h2]
  | null => rw [hp] at h3; cases h3
  | bool b => rw [hp] at h3; cases h3
  | int n => rw [hp] at h3; cases h3
  | str s2 => rw [hp] at h3; cases h3
  | list l => rw [hp] at h3; cases h3

/-- Witness for C10 at a concrete raw step with only a description. -/
theorem normalize_step_missing_tool_defaults_witness :
    dget [("description", Value.str "find articles")] "tool_name" = none
    ∧ dget [("description", Value.str "find articles")] "tool" = none
    ∧ normalize_step 0 (.dict [("description", Value.str "find articles")])
        = some (.dict [("step", .int 1), ("tool", .str "search_articles"),
                       ("description", .str "find articles"), ("params", .dict [])])
    ∧ ∃ nd, (Value.dict [("step", Value.int 1), ("tool", Value.str "search_articles"),
                         ("description", Value.str "find articles"),
                         ("params", Value.dict [])]) = .dict nd
        ∧ dget nd "tool" = some (.str "search_articles") :=
  ⟨rfl, rfl, rfl,
   normalize_step_missing_tool_defaults 0 [("description", Value.str "find articles")]
     (.dict [("step", .int 1), ("tool", .str "search_articles"),
             ("description", .str "find articles"), ("params", .dict [])])
     rfl rfl rfl⟩

end ResearchAgent
